import Mathlib

/-!
Verification of the design-value validation and similarity-ranking pipeline
of `src/demo/main.py` (a Streamlit application), shallowly embedded in Lean.

Numeric values entered by the user and stored in the reference datasets are
modelled as rationals.  A dataframe row is modelled as a total function from
column names to values (a `ReferenceRecord` has a numeric value for every
schema column).  The session dictionaries are initialised with every field
key present and bound to `None`, so the user's input dictionary always holds
all field keys; it is modelled as `String → Option ℚ`, `none` standing for a
key stored with value `None`.  Because of that, numpy's subtraction of the
user vector can meet a `None` entry and raise `TypeError`; exceptions are
modelled with `Except`.  In-place dataframe mutation is modelled by explicit
state passing: the function returns the updated dataset mapping next to its
result value.
-/

namespace Demo

/-- One dataframe row: column name to numeric value. -/
abbrev Row := String → ℚ

/-- The user's input dictionary.  The session dictionaries hold every field
key from initialisation on, so `none` models a key stored with value `None`
(for `dict.get` this is indistinguishable from an absent key). -/
abbrev DesignInput := String → Option ℚ

/-- The static validation rules `RULES` of `main.py`: field name, inclusive
lower bound, inclusive upper bound.  Python's `float("inf")` upper bound is
modelled as `none` (no finite upper bound). -/
def RULES : List (String × ℚ × Option ℚ) :=
  [("基板長さ_mm", 50, some 200),
   ("基板幅_mm", 30, some 100),
   ("基板厚み_mm", mkRat 1 10, some 1),
   ("配線幅_mm", mkRat 1 5, some 5),
   ("配線間ギャップ_mm", mkRat 1 2, none)]

/-- The secondary (scoring-only) field names `ADDITIONAL_KEYS`. -/
def ADDITIONAL_KEYS : List String := ["配線本数", "伸縮率_%", "伸縮回数", "温度_℃"]

/-- Python's chained comparison `lower <= val <= upper`, with `none` standing
for the `float("inf")` upper bound. -/
def within_range (lower : ℚ) (upper : Option ℚ) (v : ℚ) : Bool :=
  decide (lower ≤ v) &&
    (match upper with
     | none => true
     | some u => decide (v ≤ u))

/-- `validate_input`: collect the names of the rule fields whose value is
`None` or fails `lower <= val <= upper`. -/
def validate_input (inputs : DesignInput) : List String :=
  (RULES.filter (fun rule =>
    match inputs rule.1 with
    | none => true
    | some v => !(within_range rule.2.1 rule.2.2 v))).map (fun rule => rule.1)

/-- `get_sheet_names`: pick the pair of reference sheets from the substrate
size. -/
def get_sheet_names (length width : ℚ) : List String :=
  if 126 ≤ length ∨ 51 ≤ width then ["大型品_電気特性", "大型品_機械特性"]
  else ["小型品_電気特性", "小型品_機械特性"]

/-- The fixed ordered list `cols` of the 8 scoring attributes. -/
def cols : List String :=
  ["基板長さ_mm", "基板幅_mm", "基板厚み_mm", "配線幅_mm", "配線本数", "伸縮率_%", "伸縮回数", "温度_℃"]

/-- `user_vector`: `np.array([user_input.get(col, 0) for col in cols])`.
The session dictionaries are initialised with every field key present and
bound to `None`, so `full_inputs` always holds all 8 scoring keys and the
default `0` of `.get(col, 0)` never applies: each array entry is the stored
value, which may be `None` (making the array object-dtype). -/
def user_vector (user : DesignInput) : List (Option ℚ) :=
  cols.map user

/-- `row.values` of `df_filtered = df[cols]`: the row restricted to the 8
scoring columns, in their fixed order. -/
def row_values (row : Row) : List ℚ :=
  cols.map row

/-- One entry of `user_vector - row.values`: subtraction against a `None`
entry of the object-dtype user vector raises `TypeError`; otherwise it is
plain numeric subtraction. -/
def sub_entry : Option ℚ → ℚ → Except String ℚ
  | none, _ => Except.error "TypeError"
  | some a, b => Except.ok (a - b)

/-- Evaluate the element-wise subtraction left to right; the first raised
`TypeError` aborts the whole vector operation. -/
def collect : List (Except String ℚ) → Except String (List ℚ)
  | [] => Except.ok []
  | x :: xs =>
      match x with
      | Except.error e => Except.error e
      | Except.ok v =>
          match collect xs with
          | Except.error e => Except.error e
          | Except.ok vs => Except.ok (v :: vs)

/-- `np.mean(np.abs(user_vector - row.values))`: the subtraction raises
`TypeError` when any user entry is `None`; otherwise the score is the mean
of the absolute differences. -/
def avg_error (user : DesignInput) (row : Row) : Except String ℚ :=
  match collect (List.zipWith sub_entry (user_vector user) (row_values row)) with
  | Except.error e => Except.error e
  | Except.ok diffs =>
      Except.ok ((diffs.map (fun d => |d|)).sum / (cols.length : ℚ))

/-- A row after `calculate_average_error` has assigned the two new columns
`誤差平均` (`err`) and `シート名` (`sheet`). -/
structure ScoredRow where
  row : Row
  err : ℚ
  sheet : String

/-- `df_filtered.apply(lambda row: np.mean(...), axis=1)`: evaluate the
scoring lambda row by row; the first raised `TypeError` aborts the apply
(with a non-`None`-free user vector this happens at the first row). -/
def apply_scores (user : DesignInput) : List Row → Except String (List ℚ)
  | [] => Except.ok []
  | r :: rs =>
      match avg_error user r with
      | Except.error e => Except.error e
      | Except.ok v =>
          match apply_scores user rs with
          | Except.error e => Except.error e
          | Except.ok vs => Except.ok (v :: vs)

/-- The per-sheet loop body of `calculate_average_error`: assign the error
column and the sheet-name column on every row of one dataframe.  When the
apply raises, neither column is assigned on this dataframe. -/
def score_sheet (user : DesignInput) (sheet_name : String) (rows : List Row) :
    Except String (List ScoredRow) :=
  match apply_scores user rows with
  | Except.error e => Except.error e
  | Except.ok scores =>
      Except.ok (List.zipWith (fun r v => ScoredRow.mk r v sheet_name) rows scores)

/-- The `for sheet_name, df in dfs.items()` loop: mutate each dataframe in
order; a raised `TypeError` aborts the loop, leaving the dataframes already
processed mutated and the rest untouched.  Returns the mutated prefix and
the raised exception, if any. -/
def score_all (user : DesignInput) :
    List (String × List Row) → List (String × List ScoredRow) × Option String
  | [] => ([], none)
  | (nm, rows) :: rest =>
      match score_sheet user nm rows with
      | Except.error e => ([], some e)
      | Except.ok scored =>
          match score_all user rest with
          | (mutated, err) => ((nm, scored) :: mutated, err)

/-- `calculate_average_error`: first component is the post-call state of the
caller's dataframe mapping (the dataframes mutated in place with the two new
columns before any exception), second component is
`combined_results.sort_values(by="誤差平均")`, or the exception raised by the
scoring. -/
def calculate_average_error (dfs : List (String × List Row)) (user : DesignInput) :
    List (String × List ScoredRow) × Except String (List ScoredRow) :=
  match score_all user dfs with
  | (mutated, some e) => (mutated, Except.error e)
  | (mutated, none) =>
      (mutated, Except.ok (((mutated.map (fun p => p.2)).flatten).mergeSort
        (fun a b => decide (a.err ≤ b.err))))

/-- The default count `n=5` of `get_top_similar_data`. -/
def top_n_default : Nat := 5

/-- `similar_data['シート名'].unique()`: first occurrences, in order of
appearance. -/
def uniques_from (seen : List String) : List String → List String
  | [] => []
  | a :: rest =>
      if a ∈ seen then uniques_from seen rest
      else a :: uniques_from (a :: seen) rest

/-- `get_top_similar_data`: for each sheet name present, the first `n` rows
of the ranked data restricted to that sheet, in their existing order. -/
def get_top_similar_data (similar_data : List ScoredRow) (n : Nat) :
    List (String × List ScoredRow) :=
  (uniques_from [] (similar_data.map (fun r => r.sheet))).map
    (fun sheet_name =>
      (sheet_name, (similar_data.filter (fun r => r.sheet == sheet_name)).take n))

/-- The dict comprehension
`{sheet_name: pd.read_excel(file_path, sheet_name=sheet_name) for ...}`:
reads sheets left to right; the first raised exception aborts the whole
comprehension. -/
def load_datasets (read_sheet : String → Except String (List Row)) :
    List String → Except String (List (String × List Row))
  | [] => Except.ok []
  | nm :: rest =>
      match read_sheet nm with
      | Except.error e => Except.error e
      | Except.ok df =>
          match load_datasets read_sheet rest with
          | Except.error e => Except.error e
          | Except.ok others => Except.ok ((nm, df) :: others)

/-- The `try` block of the ranking path: load every selected sheet, then rank.
The surrounding `except` shows a single error message and produces no
results, which the `Except.error` case models — whether the exception came
from the sheet loading or from the scoring. -/
def run_ranking (read_sheet : String → Except String (List Row))
    (length width : ℚ) (user : DesignInput) :
    Except String (List (String × List ScoredRow) × List ScoredRow) :=
  match load_datasets read_sheet (get_sheet_names length width) with
  | Except.error e => Except.error e
  | Except.ok dfs =>
      match calculate_average_error dfs user with
      | (_, Except.error e) => Except.error e
      | (mutated, Except.ok ranked) => Except.ok (mutated, ranked)

/-- One role-tagged chat message. -/
structure Msg where
  role : String
  content : String
deriving DecidableEq

/-- The streaming loop body: `full_response += chunk.choices[0].delta.content`
whenever the delta content is not `None`. -/
def accumulate (chunks : List (Option String)) : String :=
  chunks.foldl (fun acc c => acc ++ c.getD "") ""

/-- One chat submission: append the user message to the transcript, then run
the streamed completion inside `try`.  `delivered` is the list of chunk
deltas received before the stream ended or failed; `failure` is `some e`
when an exception is raised before or during streaming.  Returns the new
transcript and the error text shown by `st.error`, if any. -/
def run_chat_turn (messages0 : List Msg) (user_input : String)
    (delivered : List (Option String)) (failure : Option String) :
    List Msg × Option String :=
  let withUser := messages0 ++ [Msg.mk "user" user_input]
  match failure with
  | some e => (withUser, some ("エラーが発生しました: " ++ e))
  | none => (withUser ++ [Msg.mk "assistant" (accumulate delivered)], none)

/-- The `system_content` f-string template: role instructions around the
serialized design values and the retrieved similar-data block. -/
def system_content (inputs_serialized : String) (context_data : String) : String :=
  "あなたは基板の管理を行なっている会社の従業員として回答してください。ユーザーからの質問に対して与えられたデータや入力された設計値をもとに回答します。\n\n入力された設計値:\n" ++
  inputs_serialized ++
  "\n\n検索された類似データ:\n" ++
  context_data ++
  "\n\n上記の情報を基に、具体的な数値を示しながら回答してください。\n特性値の予想の際には類似データを参考に平均値や分散、回帰的な分析をした上で予測してください。\n"

/-- The `messages` list handed to `client.chat.completions.create`: exactly
the system message and the one new user message. -/
def build_chat_messages (inputs_serialized context_data user_input : String) :
    List Msg :=
  [Msg.mk "system" (system_content inputs_serialized context_data),
   Msg.mk "user" user_input]

/-- The session variables of `st.session_state` relevant to the claims. -/
structure SessionState where
  inputs : DesignInput
  additional_inputs : DesignInput
  chat_mode : Bool
  messages : List Msg

/-- The initial session state: every input key maps to `None`, chat mode off,
empty transcript. -/
def initial_session : SessionState :=
  SessionState.mk (fun _ => none) (fun _ => none) false []

/-- The `入力画面に戻る` (return to input screen) button handler: it sets
`chat_mode = False` and `messages = []` and reruns; nothing else changes. -/
def return_to_input (s : SessionState) : SessionState :=
  SessionState.mk s.inputs s.additional_inputs false []

/-- Modelled from the words of the spec, for comparison with the code's
behaviour (it is not a translation of the code): the score as the mean of
absolute differences with 0 substituted for any missing user value. -/
def spec_avg_error (user : DesignInput) (row : Row) : ℚ :=
  (cols.map (fun c => |(user c).getD 0 - row c|)).sum / 8

/-- Modelled from the words of the spec, for comparison with the code's
behaviour: the ranked result set the spec's Similarity Ranker would always
produce — every record scored with `spec_avg_error`, tagged, concatenated
and sorted ascending. -/
def spec_ranked (dfs : List (String × List Row)) (user : DesignInput) :
    List ScoredRow :=
  ((dfs.map (fun p => p.2.map (fun r =>
    ScoredRow.mk r (spec_avg_error user r) p.1))).flatten).mergeSort
    (fun a b => decide (a.err ≤ b.err))

/-! Concrete inputs used by witnesses and counterexamples. -/

/-- A constant reference row. -/
def demo_row (v : ℚ) : Row := fun _ => v

/-- A user input with only the board length set, to 10 (below its lower
bound 50). -/
def demo_bad_input : DesignInput :=
  fun k => if k == "基板長さ_mm" then some 10 else none

/-- A user input with nothing set. -/
def demo_user : DesignInput := fun _ => none

/-- A sheet reader for which the small electrical sheet is unreadable. -/
def demo_reader : String → Except String (List Row) :=
  fun nm => if nm == "小型品_電気特性" then Except.error "missing sheet" else Except.ok []

/-- A two-row ranked result set, both rows from the same sheet, ascending. -/
def demo_ranked : List ScoredRow :=
  [ScoredRow.mk (demo_row 1) 1 "小型品_電気特性",
   ScoredRow.mk (demo_row 2) 2 "小型品_電気特性"]

/-- A one-sheet dataset mapping with a single row. -/
def demo_dfs : List (String × List Row) := [("大型品_電気特性", [demo_row 1])]

/-- A user input with every field set to 2. -/
def demo_full_user : DesignInput := fun _ => some 2

/-- A reachable stored input: every primary field set and within its rule
range, every additional (secondary) scoring field still `None`. -/
def demo_partial_user : DesignInput := fun k =>
  if k == "基板長さ_mm" then some 100
  else if k == "基板幅_mm" then some 60
  else if k == "基板厚み_mm" then some (mkRat 1 2)
  else if k == "配線幅_mm" then some 1
  else if k == "配線間ギャップ_mm" then some 1
  else none

/-- The underlying values of `demo_full_user`. -/
def demo_uv : String → ℚ := fun _ => 2

/-- A nonempty prior conversation transcript. -/
def prior_transcript : List Msg :=
  [Msg.mk "user" "前の質問", Msg.mk "assistant" "前の回答"]

/-- A session in chat mode with a stored design input and transcript. -/
def example_session : SessionState :=
  SessionState.mk (fun k => if k == "基板長さ_mm" then some 150 else none)
    (fun k => if k == "配線本数" then some 12 else none) true prior_transcript

end Demo

namespace Demo

/-- Claim C4: the Sheet Selector is a total, exactly bimodal function of
(length, width): it returns the large pair iff `length >= 126 or width >= 51`,
otherwise the small pair, and length 125.999 with width 50.999 selects the
small pair. -/
theorem sheet_selector_bimodal (length width : ℚ) :
    (get_sheet_names length width = ["大型品_電気特性", "大型品_機械特性"] ∨
      get_sheet_names length width = ["小型品_電気特性", "小型品_機械特性"]) ∧
    (get_sheet_names length width = ["大型品_電気特性", "大型品_機械特性"] ↔
      126 ≤ length ∨ 51 ≤ width) ∧
    get_sheet_names (125.999 : ℚ) (50.999 : ℚ) = ["小型品_電気特性", "小型品_機械特性"] := by
  unfold get_sheet_names
  refine ⟨?_, ?_, ?_⟩
  · split
    · exact Or.inl rfl
    · exact Or.inr rfl
  · split
    · simp_all
    · simp_all
  · norm_num

/-- Claim C7: when the completion call fails before or during streaming, the
transcript after the turn is exactly the transcript that existed before the
attempt (the prior messages followed by the new user message), no assistant
message is appended (in particular the partially accumulated text is
discarded), and an error message is surfaced. -/
theorem chat_failure_preserves_transcript (messages0 : List Msg)
    (user_input : String) (delivered : List (Option String)) (e : String) :
    (run_chat_turn messages0 user_input delivered (some e)).1 =
      messages0 ++ [Msg.mk "user" user_input] ∧
    (∀ m ∈ (run_chat_turn messages0 user_input delivered (some e)).1,
      m.role = "assistant" → m ∈ messages0) ∧
    (run_chat_turn messages0 user_input delivered (some e)).2 =
      some ("エラーが発生しました: " ++ e) := by
  refine ⟨rfl, ?_, rfl⟩
  intro m hm hrole
  simp only [run_chat_turn, List.mem_append, List.mem_singleton] at hm
  rcases hm with h | h
  · exact h
  · subst h
    simp at hrole

/-- Claim C8, counterexample: with a nonempty prior transcript, the message
list handed to the completion call has exactly two entries and contains none
of the prior transcript messages, so the running conversation transcript is
not part of it. -/
theorem chat_messages_omit_history_cex :
    prior_transcript ≠ [] ∧
    (build_chat_messages "入力値JSON" "類似データ表" "新しい質問").length = 2 ∧
    ∀ m ∈ prior_transcript,
      m ∉ build_chat_messages "入力値JSON" "類似データ表" "新しい質問" := by
  decide

/-- Claim C8, amended: on every chat invocation the message sequence handed
to the completion call consists of exactly two messages: one system message
whose content embeds the DesignInput serialization and the ChatContext block,
and the one new user message; the prior transcript is not included. -/
theorem chat_messages_system_plus_user
    (inputs_serialized context_data user_input : String) :
    build_chat_messages inputs_serialized context_data user_input =
      [Msg.mk "system" (system_content inputs_serialized context_data),
       Msg.mk "user" user_input] ∧
    (∃ pre mid post, system_content inputs_serialized context_data =
      pre ++ inputs_serialized ++ mid ++ context_data ++ post) :=
  ⟨rfl, _, _, _, rfl⟩

/-- Claim C9, counterexample: after the return-to-input button handler runs
on a session holding a stored design input, the transcript is cleared and
chat mode is off, but the stored DesignInput still holds its value and
differs from the initial empty state, so DesignInput is not reset. -/
theorem return_keeps_inputs_cex :
    example_session.chat_mode = true ∧
    (return_to_input example_session).chat_mode = false ∧
    (return_to_input example_session).messages = [] ∧
    (return_to_input example_session).inputs "基板長さ_mm" = some 150 ∧
    initial_session.inputs "基板長さ_mm" = none ∧
    (return_to_input example_session).inputs "基板長さ_mm" ≠
      initial_session.inputs "基板長さ_mm" := by
  decide

/-- Claim C9, amended: returning from chat mode to the input form clears the
conversation transcript and leaves chat mode, but the stored DesignInput
(primary and secondary field values) is left unchanged, not reset. -/
theorem return_to_input_resets_only_chat (s : SessionState) :
    (return_to_input s).chat_mode = false ∧
    (return_to_input s).messages = [] ∧
    (return_to_input s).inputs = s.inputs ∧
    (return_to_input s).additional_inputs = s.additional_inputs :=
  ⟨rfl, rfl, rfl, rfl⟩

end Demo

namespace Demo

theorem rules_key_unique :
    ∀ p ∈ RULES, ∀ q ∈ RULES, p.1 = q.1 → p = q := by decide

theorem rules_lower_le_upper :
    ∀ p ∈ RULES, p.2.1 ≤ p.2.2.getD p.2.1 := by decide

theorem mem_validate_iff (inputs : DesignInput) (key : String) :
    key ∈ validate_input inputs ↔
      ∃ lu, (key, lu) ∈ RULES ∧
        (inputs key = none ∨
          ∃ v, inputs key = some v ∧ within_range lu.1 lu.2 v = false) := by
  unfold validate_input
  simp only [List.mem_map, List.mem_filter]
  constructor
  · rintro ⟨rule, ⟨hmem, hf⟩, hkey⟩
    refine ⟨rule.2, by rw [← hkey]; exact hmem, ?_⟩
    rw [← hkey]
    rcases h : inputs rule.1 with _ | v
    · exact Or.inl rfl
    · refine Or.inr ⟨v, rfl, ?_⟩
      rw [h] at hf
      simpa using hf
  · rintro ⟨lu, hmem, hbad⟩
    refine ⟨(key, lu), ⟨hmem, ?_⟩, rfl⟩
    rcases hbad with h | ⟨v, hv, hw⟩
    · simp [h]
    · simp [hv, hw]

theorem within_range_false_iff (lower : ℚ) (upper : Option ℚ) (v : ℚ) :
    within_range lower upper v = false ↔
      v < lower ∨ ∃ u, upper = some u ∧ u < v := by
  cases upper with
  | none => simp [within_range, not_le]
  | some u =>
      simp only [within_range, Bool.and_eq_false_iff, decide_eq_false_iff_not,
        not_le, Option.some.injEq]
      constructor
      · rintro (h | h)
        · exact Or.inl h
        · exact Or.inr ⟨u, rfl, h⟩
      · rintro (h | ⟨u', hu', h⟩)
        · exact Or.inl h
        · exact Or.inr (hu' ▸ h)

/-- Claim C3: for every DesignInput, the Validator returns exactly the primary
field names whose value is missing (`None`) or lies strictly outside the
rule's inclusive range: membership in the returned list is equivalent to the
value being missing or strictly below the lower bound or strictly above the
(finite) upper bound; a value exactly equal to the lower or upper bound
produces no violation, and a `None` primary field always appears. -/
theorem validator_reports_invalid_fields (inputs : DesignInput) (key : String)
    (lower : ℚ) (upper : Option ℚ) (hrule : (key, lower, upper) ∈ RULES) :
    (key ∈ validate_input inputs ↔
      (inputs key = none ∨ ∃ v, inputs key = some v ∧
        (v < lower ∨ ∃ u, upper = some u ∧ u < v))) ∧
    (inputs key = some lower → key ∉ validate_input inputs) ∧
    (∀ u, upper = some u → inputs key = some u → key ∉ validate_input inputs) ∧
    (inputs key = none → key ∈ validate_input inputs) := by
  have hle : lower ≤ upper.getD lower := by
    simpa using rules_lower_le_upper (key, lower, upper) hrule
  have key_iff : key ∈ validate_input inputs ↔
      (inputs key = none ∨ ∃ v, inputs key = some v ∧
        (v < lower ∨ ∃ u, upper = some u ∧ u < v)) := by
    rw [mem_validate_iff]
    constructor
    · rintro ⟨lu, hmem, hbad⟩
      have heq : (key, lu) = (key, lower, upper) :=
        rules_key_unique (key, lu) hmem (key, lower, upper) hrule rfl
      have hlu : lu = (lower, upper) := congrArg Prod.snd heq
      subst hlu
      rcases hbad with h | ⟨v, hv, hw⟩
      · exact Or.inl h
      · exact Or.inr ⟨v, hv, (within_range_false_iff lower upper v).mp hw⟩
    · rintro (h | ⟨v, hv, hbad⟩)
      · exact ⟨(lower, upper), hrule, Or.inl h⟩
      · exact ⟨(lower, upper), hrule,
          Or.inr ⟨v, hv, (within_range_false_iff lower upper v).mpr hbad⟩⟩
  refine ⟨key_iff, ?_, ?_, fun h => key_iff.mpr (Or.inl h)⟩
  · intro hv hk
    rcases key_iff.mp hk with h | ⟨v, hv', hbad⟩
    · rw [hv] at h
      exact Option.noConfusion h
    · have hvl : v = lower := by
        rw [hv] at hv'
        exact Option.some_inj.mp hv'.symm
      rcases hbad with h | ⟨u, hu, hul⟩
      · exact absurd (hvl ▸ h) (lt_irrefl lower)
      · have h1 : lower ≤ u := by rw [hu] at hle; simpa using hle
        exact absurd (hvl ▸ hul) (not_lt.mpr h1)
  · intro u hu hv hk
    have h1 : lower ≤ u := by rw [hu] at hle; simpa using hle
    rcases key_iff.mp hk with h | ⟨v, hv', hbad⟩
    · rw [hv] at h
      exact Option.noConfusion h
    · have hvu : v = u := by
        rw [hv] at hv'
        exact Option.some_inj.mp hv'.symm
      rcases hbad with h | ⟨u', hu', hul⟩
      · exact absurd (hvu ▸ h) (not_lt.mpr h1)
      · have h2 : u' < u := hvu ▸ hul
        have h3 : u = u' := by
          rw [hu] at hu'
          exact Option.some_inj.mp hu'
        rw [h3] at h2
        exact absurd h2 (lt_irrefl u')

/-- Witness for C3 at a concrete input: board length 10 is below its lower
bound 50 and is reported. -/
theorem validator_witness :
    "基板長さ_mm" ∈ validate_input demo_bad_input :=
  (validator_reports_invalid_fields demo_bad_input "基板長さ_mm" 50 (some 200)
    (List.Mem.head _)).1.mpr
    (Or.inr ⟨10, rfl, Or.inl (by norm_num)⟩)

end Demo

namespace Demo

theorem collect_zip (user : DesignInput) (uv : String → ℚ) (row : Row)
    (cs : List String) (h : ∀ c ∈ cs, user c = some (uv c)) :
    collect (List.zipWith sub_entry (cs.map user) (cs.map row)) =
      Except.ok (cs.map (fun c => uv c - row c)) := by
  induction cs with
  | nil => rfl
  | cons c cs ih =>
      have hc : user c = some (uv c) := h c (List.mem_cons_self c cs)
      have ih' := ih (fun x hx => h x (List.mem_cons_of_mem c hx))
      rw [List.map_cons, List.map_cons, List.zipWith_cons_cons, hc]
      show (match collect (List.zipWith sub_entry (cs.map user) (cs.map row)) with
        | Except.error e => Except.error e
        | Except.ok vs => Except.ok ((uv c - row c) :: vs)) =
        Except.ok ((uv c - row c) :: cs.map (fun c => uv c - row c))
      rw [ih']

theorem avg_error_complete (user : DesignInput) (uv : String → ℚ) (row : Row)
    (h : ∀ c ∈ cols, user c = some (uv c)) :
    avg_error user row =
      Except.ok ((cols.map (fun c => |uv c - row c|)).sum / 8) := by
  unfold avg_error user_vector row_values
  rw [collect_zip user uv row cols h]
  show Except.ok _ = _
  rw [List.map_map]
  norm_num [cols]

theorem apply_scores_complete (user : DesignInput) (uv : String → ℚ)
    (h : ∀ c ∈ cols, user c = some (uv c)) (rows : List Row) :
    apply_scores user rows = Except.ok (rows.map (fun r =>
      (cols.map (fun c => |uv c - r c|)).sum / 8)) := by
  induction rows with
  | nil => rfl
  | cons r rs ih => simp [apply_scores, avg_error_complete user uv r h, ih]

theorem score_sheet_complete (user : DesignInput) (uv : String → ℚ)
    (h : ∀ c ∈ cols, user c = some (uv c)) (sheet_name : String) (rows : List Row) :
    score_sheet user sheet_name rows = Except.ok (rows.map (fun r =>
      ScoredRow.mk r ((cols.map (fun c => |uv c - r c|)).sum / 8) sheet_name)) := by
  unfold score_sheet
  rw [apply_scores_complete user uv h rows]
  show Except.ok _ = _
  rw [List.zipWith_map_right, List.zipWith_same]

theorem score_all_complete (user : DesignInput) (uv : String → ℚ)
    (h : ∀ c ∈ cols, user c = some (uv c)) (dfs : List (String × List Row)) :
    score_all user dfs = (dfs.map (fun p => (p.1, p.2.map (fun r =>
      ScoredRow.mk r ((cols.map (fun c => |uv c - r c|)).sum / 8) p.1))), none) := by
  induction dfs with
  | nil => rfl
  | cons p rest ih =>
      obtain ⟨nm, rows⟩ := p
      simp [score_all, score_sheet_complete user uv h nm rows, ih]

theorem sorted_by_err_mergeSort (l : List ScoredRow) :
    List.Sorted (fun a b : ScoredRow => a.err ≤ b.err)
      (l.mergeSort (fun a b => decide (a.err ≤ b.err))) := by
  have h := @List.sorted_mergeSort ScoredRow (fun a b => decide (a.err ≤ b.err))
    (fun a b c hab hbc => by
      simp only [decide_eq_true_eq] at *
      exact le_trans hab hbc)
    (fun a b => by
      simp only [Bool.or_eq_true, decide_eq_true_eq]
      exact le_total a.err b.err) l
  exact h.imp (fun hab => of_decide_eq_true hab)

/-- Claim C1, counterexample: at a reachable stored input — the validator
reports no violation, the four additional scoring fields are still `None` —
and a nonempty selected dataset, the scoring raises `TypeError` and the
ranker produces no ranked result at all, while the claim's zero-substitution
policy (`spec_ranked`, modelled from the spec's words) would produce a
one-record ranked set: the substitution the claim asserts never executes. -/
theorem ranker_zero_subst_cex :
    validate_input demo_partial_user = [] ∧
    demo_partial_user "配線本数" = none ∧
    (calculate_average_error demo_dfs demo_partial_user).2 =
      Except.error "TypeError" ∧
    (∀ l, (calculate_average_error demo_dfs demo_partial_user).2 ≠ Except.ok l) ∧
    (spec_ranked demo_dfs demo_partial_user).length = 1 := by
  refine ⟨by decide, rfl, rfl, ?_, ?_⟩
  · intro l h
    exact Except.noConfusion h
  · unfold spec_ranked
    rw [(List.mergeSort_perm _ _).length_eq]
    rfl

/-- Claim C1, amended: when every one of the 8 scoring attributes has a user
value (the only case in which the scoring does not raise `TypeError`, since
the input dictionary always holds every scoring key and an unset key stores
`None`, so the `.get(col, 0)` default of 0 never applies), the ranker
succeeds and its output is sorted ascending by error score and is a
permutation of the concatenation, over all selected datasets in order, of
that dataset's records each tagged with its source dataset name and scored
with the mean (over the 8 scoring attributes) of the absolute differences
between the record's attribute vector and the user's values. -/
theorem similarity_ranker_score_sort (dfs : List (String × List Row))
    (user : DesignInput) (uv : String → ℚ)
    (huv : ∀ c ∈ cols, user c = some (uv c)) :
    ∃ ranked, (calculate_average_error dfs user).2 = Except.ok ranked ∧
      List.Sorted (fun a b : ScoredRow => a.err ≤ b.err) ranked ∧
      List.Perm ranked
        ((dfs.map (fun p => p.2.map (fun r => ScoredRow.mk r
          ((cols.map (fun c => |uv c - r c|)).sum / 8) p.1))).flatten) := by
  unfold calculate_average_error
  rw [score_all_complete user uv huv dfs]
  refine ⟨_, rfl, sorted_by_err_mergeSort _, ?_⟩
  refine (List.mergeSort_perm _ _).trans ?_
  rw [List.map_map]
  exact List.Perm.refl _

/-- Witness for C1 at a concrete complete input: every scoring field set to
2 against the one-row dataset. -/
theorem similarity_ranker_witness :
    ∃ ranked, (calculate_average_error demo_dfs demo_full_user).2 =
        Except.ok ranked ∧
      List.Sorted (fun a b : ScoredRow => a.err ≤ b.err) ranked ∧
      List.Perm ranked
        ((demo_dfs.map (fun p => p.2.map (fun r => ScoredRow.mk r
          ((cols.map (fun c => |demo_uv c - r c|)).sum / 8) p.1))).flatten) :=
  similarity_ranker_score_sort demo_dfs demo_full_user demo_uv (fun _ _ => rfl)

end Demo

namespace Demo

/-- Claim C5: for every ranked result set and count `n`, each entry of the
Top-N extraction holds the first `n` records of its dataset, hence at most
`n` records; all of them when the dataset has fewer than `n`; and the
already-sorted ascending order is preserved without re-sorting. -/
theorem top_n_per_sheet (rows : List ScoredRow) (n : Nat) (name : String)
    (l : List ScoredRow) (hmem : (name, l) ∈ get_top_similar_data rows n) :
    l.length ≤ n ∧
    l = (rows.filter (fun r => r.sheet == name)).take n ∧
    ((rows.filter (fun r => r.sheet == name)).length ≤ n →
      l = rows.filter (fun r => r.sheet == name)) ∧
    (List.Sorted (fun a b : ScoredRow => a.err ≤ b.err) rows →
      List.Sorted (fun a b : ScoredRow => a.err ≤ b.err) l) := by
  rcases List.mem_map.mp hmem with ⟨nm, _, heq⟩
  have h1 : nm = name := congrArg Prod.fst heq
  subst h1
  have h2 : l = (rows.filter (fun r => r.sheet == nm)).take n :=
    (congrArg Prod.snd heq).symm
  refine ⟨?_, h2, ?_, ?_⟩
  · rw [h2]
    exact le_trans (le_of_eq (List.length_take _ _)) (min_le_left _ _)
  · intro hlen
    rw [h2]
    exact List.take_of_length_le hlen
  · intro hs
    rw [h2]
    exact List.Pairwise.sublist
      ((List.take_sublist _ _).trans (List.filter_sublist _)) hs

/-- Witness for C5: Top-3 of a 2-row dataset returns exactly those 2 rows. -/
theorem top_n_witness :
    demo_ranked.length ≤ 3 ∧
    demo_ranked = (demo_ranked.filter (fun r => r.sheet == "小型品_電気特性")).take 3 ∧
    ((demo_ranked.filter (fun r => r.sheet == "小型品_電気特性")).length ≤ 3 →
      demo_ranked = demo_ranked.filter (fun r => r.sheet == "小型品_電気特性")) ∧
    (List.Sorted (fun a b : ScoredRow => a.err ≤ b.err) demo_ranked →
      List.Sorted (fun a b : ScoredRow => a.err ≤ b.err) demo_ranked) :=
  top_n_per_sheet demo_ranked 3 "小型品_電気特性" demo_ranked (List.Mem.head _)

theorem load_datasets_error (read_sheet : String → Except String (List Row))
    (names : List String) (name : String) (e : String)
    (hname : name ∈ names) (herr : read_sheet name = Except.error e) :
    ∃ msg, load_datasets read_sheet names = Except.error msg := by
  induction names with
  | nil => cases hname
  | cons nm rest ih =>
    rcases List.mem_cons.mp hname with h | h
    · subst h
      exact ⟨e, by simp [load_datasets, herr]⟩
    · rcases hr : read_sheet nm with e' | df
      · exact ⟨e', by simp [load_datasets, hr]⟩
      · rcases ih h with ⟨msg, hmsg⟩
        exact ⟨msg, by simp [load_datasets, hr, hmsg]⟩

/-- Claim C6: if any selected reference sheet cannot be loaded, the whole
ranking attempt fails with a single reported error and no ranked results,
partial or otherwise, are produced. -/
theorem load_failure_aborts_ranking (read_sheet : String → Except String (List Row))
    (length width : ℚ) (user : DesignInput) (name : String) (e : String)
    (hname : name ∈ get_sheet_names length width)
    (herr : read_sheet name = Except.error e) :
    (∃ msg, run_ranking read_sheet length width user = Except.error msg) ∧
    ∀ res, run_ranking read_sheet length width user ≠ Except.ok res := by
  rcases load_datasets_error read_sheet _ name e hname herr with ⟨msg, hmsg⟩
  constructor
  · refine ⟨msg, ?_⟩
    unfold run_ranking
    rw [hmsg]
  · intro res hres
    unfold run_ranking at hres
    rw [hmsg] at hres
    exact Except.noConfusion hres

/-- Witness for C6: the small electrical sheet is unreadable, so the whole
ranking call errors. -/
theorem load_failure_witness :
    (∃ msg, run_ranking demo_reader 100 40 demo_user = Except.error msg) ∧
    ∀ res, run_ranking demo_reader 100 40 demo_user ≠ Except.ok res :=
  load_failure_aborts_ranking demo_reader 100 40 demo_user "小型品_電気特性" "missing sheet"
    (by decide) rfl

end Demo
